import Mathlib

/-!
# Verification of the goback snapshot lifecycle manager

A shallow embedding of `src/main.go` of the `goback` backup tool:
the snapshot publisher (`runBackup`), the snapshot listing (`getSnapshots`,
`getLatestSnapshot`) and the retention engine (`purgeBackups`), together
with theorems settling the specification claims about them.

Timestamps are modelled as seconds since the Unix epoch (an `Int`), matching
Go's `time.Time` at the resolution the program inspects: comparison
(`ModTime().Before`), the calendar date (`Date()`) and the ISO-8601 week
(`ISOWeek()`).  The calendar conversions below are the standard civil
calendar algorithms (proleptic Gregorian), the same calendar implemented by
Go's `time` package.
-/

namespace GoBack

/-! ## Calendar arithmetic (model of Go's time.Time Date and ISOWeek) -/

/-- Convert a day number (days since 1970-01-01) to a civil date
`(year, month, day)`, months `1..12`.  Standard civil-from-days algorithm,
agreeing with Go's `time.Time.Date`. -/
def civilFromDays (z : Int) : Int × Int × Int :=
  let era : Int := (z + 719468).fdiv 146097
  let doe : Nat := (z + 719468 - era * 146097).toNat
  let yoe : Nat := (doe - doe / 1460 + doe / 36524 - doe / 146096) / 365
  let doy : Nat := doe - (365 * yoe + yoe / 4 - yoe / 100)
  let mp : Nat := (5 * doy + 2) / 153
  let d : Nat := doy - (153 * mp + 2) / 5 + 1
  let m : Nat := if mp < 10 then mp + 3 else mp - 9
  let y : Int := era * 400 + yoe
  (if m ≤ 2 then y + 1 else y, (m : Int), (d : Int))

/-- Convert a civil date to a day number (days since 1970-01-01).
Standard days-from-civil algorithm, inverse of `civilFromDays`. -/
def daysFromCivil (y m d : Int) : Int :=
  let yy : Int := if m ≤ 2 then y - 1 else y
  let era : Int := yy.fdiv 400
  let yoe : Nat := (yy - era * 400).toNat
  let mp : Nat := (if m ≤ 2 then m + 9 else m - 3).toNat
  let doy : Nat := (153 * mp + 2) / 5 + d.toNat - 1
  let doe : Nat := yoe * 365 + yoe / 4 - yoe / 100 + doy
  era * 146097 + (doe : Int) - 719468

/-- ISO-8601 weekday of a day number: Monday = 1 … Sunday = 7.
Day 0 (1970-01-01) was a Thursday. -/
def isoWeekday (z : Int) : Int := (z + 3).fmod 7 + 1

/-- ISO-8601 week-numbering `(year, week)` of a day number, following the
implementation of Go's `time.Time.ISOWeek`: move to the Thursday of the
week containing the day; its calendar year is the ISO year, and the week
number is that Thursday's zero-based day-of-year divided by 7, plus 1. -/
def isoWeek (z : Int) : Int × Int :=
  let th : Int := z + (4 - isoWeekday z)
  let y : Int := (civilFromDays th).1
  let yday : Int := th - daysFromCivil y 1 1
  (y, yday / 7 + 1)

-- Sanity checks of the calendar model on known dates.
theorem civil_epoch : civilFromDays 0 = (1970, 1, 1) := by decide

theorem days_epoch : daysFromCivil 1970 1 1 = 0 := by decide

theorem epoch_was_thursday : isoWeekday 0 = 4 := by decide

theorem isoWeek_2025_01_01 : isoWeek (daysFromCivil 2025 1 1) = (2025, 1) := by decide

theorem isoWeek_2024_12_29 : isoWeek (daysFromCivil 2024 12 29) = (2024, 52) := by decide

theorem isoWeek_2021_01_01 : isoWeek (daysFromCivil 2021 1 1) = (2020, 53) := by decide

/-! ## Data model: snapshots and the keep policy -/

/-- A snapshot as the retention engine sees it: the directory name and its
last-modified time (`os.FileInfo.Name` / `os.FileInfo.ModTime`), the latter
in seconds since the Unix epoch. -/
structure Snapshot where
  name : String
  modTime : Int
deriving DecidableEq, Repr

/-- The day number of a snapshot's modification time. -/
def modDay (s : Snapshot) : Int := s.modTime.fdiv 86400

/-- The weekly-tier bucket of a snapshot: `year*100 + week` of
`ModTime().ISOWeek()`, exactly as computed in `purgeBackups`. -/
def weekKey (s : Snapshot) : Int :=
  let yw := isoWeek (modDay s)
  yw.1 * 100 + yw.2

/-- The monthly-tier bucket of a snapshot: `year*100 + int(month)` of
`ModTime().Date()`, exactly as computed in `purgeBackups`. -/
def monthKey (s : Snapshot) : Int :=
  let c := civilFromDays (modDay s)
  c.1 * 100 + c.2.1

/-- The `keep:` section of the configuration (`type Keep` in the source). -/
structure Keep where
  daily : Int
  weekly : Int
  monthly : Int
deriving DecidableEq, Repr

/-- Membership test used to model the Go map lookups `to_keep[name]`,
`weeks_seen[key]` and `months_seen[key]` (the maps are only ever used as
sets: lookup and insert). -/
def memb {α : Type} [DecidableEq α] : List α → α → Bool
  | [], _ => false
  | b :: rest, a => if b = a then true else memb rest a

/-! ## The retention engine's keep-set selection (`purgeBackups`, selection) -/

/-- The daily tier of `purgeBackups`: walk the newest-first list while
`daily_kept_count < Keep.Daily`, adding each snapshot not already in
`to_keep` and counting only actual additions. -/
def dailyPass : List Snapshot → Int → Int → List String → List String
  | [], _, _, kept => kept
  | s :: rest, limit, count, kept =>
    if count < limit then
      if memb kept s.name then dailyPass rest limit count kept
      else dailyPass rest limit (count + 1) (kept ++ [s.name])
    else kept

/-- The weekly and monthly tiers of `purgeBackups`, parameterised by the
bucket key (the two loops in the source are identical up to the key):
walk the newest-first list, breaking once the tier's counter reaches the
limit; the first snapshot of each unseen bucket marks the bucket seen, and
is added to `to_keep` (with the counter incremented) only when not already
kept by an earlier tier. -/
def tierPass (key : Snapshot → Int) :
    List Snapshot → Int → Int → List Int → List String → List String
  | [], _, _, _, kept => kept
  | s :: rest, limit, count, seen, kept =>
    if count ≥ limit then kept
    else if memb seen (key s) then tierPass key rest limit count seen kept
    else if memb kept s.name then tierPass key rest limit count (key s :: seen) kept
    else tierPass key rest limit (count + 1) (key s :: seen) (kept ++ [s.name])

/-- The keep set computed by `purgeBackups` from the newest-first snapshot
list: daily tier, then weekly tier, then monthly tier, each extending the
same `to_keep` accumulator. -/
def keepSet (snapshots : List Snapshot) (k : Keep) : List String :=
  let d := dailyPass snapshots k.daily 0 []
  let w := tierPass weekKey snapshots k.weekly 0 [] d
  tierPass monthKey snapshots k.monthly 0 [] w

/-! ## Snapshot listing (`getSnapshots`, `getLatestSnapshot`) -/

/-- Failure modes of reading the destination directory: `os.IsNotExist`
versus any other error. -/
inductive FsError where
  | notExist
  | other (msg : String)
deriving DecidableEq, Repr

/-- A directory entry of the destination root as returned by `os.ReadDir`
(with its `Info()` already available). -/
structure DirEntry where
  name : String
  isDir : Bool
  modTime : Int
deriving DecidableEq, Repr

/-- The `os.FileInfo` view of a directory entry kept by `getSnapshots`. -/
def entrySnapshot (e : DirEntry) : Snapshot := ⟨e.name, e.modTime⟩

/-- Model of `strings.HasPrefix(name, ".")`: whether the name's first
character is a dot. -/
def startsWithDot (nm : String) : Bool :=
  match nm.data with
  | [] => false
  | c :: _ => c == '.'

/-- The filtering step of `getSnapshots`: keep directories whose name does
not begin with `"."`. -/
def snapshotFilter (entries : List DirEntry) : List Snapshot :=
  (entries.filter (fun e => e.isDir && !(startsWithDot e.name))).map entrySnapshot

/-- The sorting step of `getSnapshots` (`sort.Slice` with
`ModTime().Before`): ascending by modification time.  Go's `sort.Slice` is
an unstable sort; the model picks a canonical sorted permutation
(insertion sort), and the determinism theorems treat any other sorted
permutation explicitly. -/
def sortByModTime (l : List Snapshot) : List Snapshot :=
  l.insertionSort (fun a b => a.modTime ≤ b.modTime)

/-- `getSnapshots`: read the destination directory; a missing directory
yields the empty listing (`nil, nil`), any other read error is returned;
otherwise filter out non-directories and dot-named entries and sort the
rest ascending by modification time. -/
def getSnapshots (dir : Except FsError (List DirEntry)) :
    Except FsError (List Snapshot) :=
  match dir with
  | .error .notExist => .ok []
  | .error e => .error e
  | .ok entries => .ok (sortByModTime (snapshotFilter entries))

/-- `getLatestSnapshot`: the name of the last (newest) snapshot of the
sorted listing, or `""` when the listing is empty or errored. -/
def getLatestSnapshot (dir : Except FsError (List DirEntry)) :
    Except FsError String :=
  match getSnapshots dir with
  | .error e => .error e
  | .ok snaps =>
    if snaps.length = 0 then .ok ""
    else .ok (((snaps.getLast?).map Snapshot.name).getD "")

/-! ## The purge pass (`purgeBackups`, deletion loop) -/

/-- One emitted purge action: in dry-run mode a report, otherwise a
recursive delete of `filepath.Join(destination, name)`; `ok` records
whether the `os.RemoveAll` succeeded (a failure is only logged). -/
inductive PurgeAction where
  | report (name : String)
  | delete (name : String) (ok : Bool)
deriving DecidableEq, Repr

/-- The snapshot name an action refers to. -/
def actionName : PurgeAction → String
  | .report nm => nm
  | .delete nm _ => nm

/-- The final loop of `purgeBackups`: every snapshot not in `to_keep`
produces exactly one action; a failed delete is logged and the loop
continues with the remaining candidates. -/
def purgeLoop (dryRun : Bool) (delFails : String → Bool) (kept : List String) :
    List Snapshot → List PurgeAction
  | [] => []
  | s :: rest =>
    if memb kept s.name then purgeLoop dryRun delFails kept rest
    else if dryRun then .report s.name :: purgeLoop dryRun delFails kept rest
    else .delete s.name (!delFails s.name) :: purgeLoop dryRun delFails kept rest

/-- `purgeBackups`: list the snapshots (oldest-first), reverse to
newest-first, return `nil` at once on an empty listing, otherwise compute
the keep set and emit one purge action per unkept snapshot.  `delFails`
says which `os.RemoveAll` calls fail; the function returns success
regardless. -/
def purgeBackups (dir : Except FsError (List DirEntry)) (k : Keep)
    (dryRun : Bool) (delFails : String → Bool) :
    Except FsError (List PurgeAction) :=
  match getSnapshots dir with
  | .error e => .error e
  | .ok snaps =>
    let snapshots := snaps.reverse
    if snapshots.length = 0 then .ok []
    else .ok (purgeLoop dryRun delFails (keepSet snapshots k) snapshots)

/-! ## The snapshot publisher (`runBackup`) -/

/-- The configuration fields consumed by the publisher and the retention
engine (`type Config` in the source; `snapshotPfx` models the
snapshot-name stem field). -/
structure Config where
  destination : String
  snapshotPfx : String
  source : List String
  exclude : List String
  keep : Keep
  rsyncExtraFlags : String
  ignoreVanishedFilesError : Bool

/-- A filesystem mutation performed by the publisher.  `rename` carries
whether the `os.Rename` succeeded; a failed rename moves nothing. -/
inductive FsOp where
  | removeAll (path : String)
  | mkdirAll (path : String)
  | createFile (path : String)
  | rename (src dst : String) (ok : Bool)
deriving DecidableEq, Repr

/-- Where the subprocess output goes: the caller's standard streams
(dry-run) or the `rsync.log` file inside the staging directory. -/
inductive OutDest where
  | streams
  | logFile (path : String)
deriving DecidableEq, Repr

/-- One invocation of the rsync subprocess: its argument list and where
its output is directed. -/
structure RsyncCall where
  args : List String
  out : OutDest
deriving DecidableEq, Repr

/-- The outcome of `cmd.Run()`: the process ran and exited with a code
(`nil` error for code 0, `*exec.ExitError` otherwise), or running it
failed without an exit status (a non-`ExitError` error, e.g. the binary
could not be started). -/
inductive CmdResult where
  | exited (code : Int)
  | startFailure (msg : String)
deriving DecidableEq, Repr

/-- The dry-run flag scan of `runBackup` (lines 111–122): in dry-run mode
append `--dry-run` unless some flag built so far is already `--dry-run`
or `-n`. -/
def withDryRunFlag (dryRun : Bool) (args : List String) : List String :=
  if dryRun && !(args.any (fun a => a == "--dry-run" || a == "-n")) then
    args ++ ["--dry-run"]
  else args

/-- The rsync argument list built by `runBackup`: base flags, an optional
`--link-dest` against the latest snapshot, the excludes, the extra flags
split on spaces, the dry-run flag scan, then the sources and the staging
directory. -/
def rsyncArgs (config : Config) (dryRun : Bool) (latestSnapshot : String)
    (unfinishedDir : String) : List String :=
  let args0 : List String := ["-a", "-v", "-h", "--delete", "--stats", "--inplace"]
  let args1 := if latestSnapshot ≠ "" then
      args0 ++ ["--link-dest=" ++ (config.destination ++ "/" ++ latestSnapshot)]
    else args0
  let args2 := args1 ++ config.exclude.map (fun ex => "--exclude=" ++ ex)
  let args3 := if config.rsyncExtraFlags ≠ "" then
      args2 ++ config.rsyncExtraFlags.splitOn " "
    else args2
  withDryRunFlag dryRun args3 ++ config.source ++ [unfinishedDir]

/-- The exit-status evaluation of `runBackup` (the `cmd.Run()` error
branch): exit code 0 is success; a non-zero exit is an `*exec.ExitError`,
tolerated only when the code is 24 and `ignore_vanished_files_error` is
set; an error that is not an `ExitError` always fails. -/
def rsyncRunFails (rsync : CmdResult) (ignoreVanished : Bool) : Bool :=
  match rsync with
  | .exited code => if code == 0 then false else !(code == 24 && ignoreVanished)
  | .startFailure _ => true

/-- The observable outcome of one `runBackup` call: the filesystem
mutations performed, in order; the subprocess invocation, if it was
reached; and the returned error, if any. -/
structure BackupRun where
  ops : List FsOp
  call : Option RsyncCall
  result : Except String Unit
deriving Repr

/-- `runBackup`: remove and recreate the staging directory
`<destination>/.unfinished` (reported only, in dry-run); find the latest
snapshot; build the rsync arguments; direct output to the caller's
streams (dry-run) or create `rsync.log` in the staging directory; run
rsync and evaluate its exit status; on success and not dry-run, rename
the staging directory to `<destination>/<stem>_<timestamp>`.  `nowStr` is
the formatted wall-clock time, `logCreateOk` whether `os.Create` of the
log file succeeds, `renameOk` whether the final `os.Rename` succeeds. -/
def runBackup (config : Config) (dryRun : Bool) (nowStr : String)
    (dir : Except FsError (List DirEntry)) (logCreateOk renameOk : Bool)
    (rsync : CmdResult) : BackupRun :=
  let unfinishedDir := config.destination ++ "/.unfinished"
  let snapshotName := config.snapshotPfx ++ "_" ++ nowStr
  let finalDest := config.destination ++ "/" ++ snapshotName
  let ops0 : List FsOp :=
    if !dryRun then [.removeAll unfinishedDir, .mkdirAll unfinishedDir] else []
  match getLatestSnapshot dir with
  | .error _ => ⟨ops0, none, .error "failed to get latest snapshot"⟩
  | .ok latestSnapshot =>
    let args := rsyncArgs config dryRun latestSnapshot unfinishedDir
    if dryRun then
      let call : RsyncCall := ⟨args, .streams⟩
      if rsyncRunFails rsync config.ignoreVanishedFilesError then
        ⟨ops0, some call, .error "rsync command failed"⟩
      else ⟨ops0, some call, .ok ()⟩
    else if !logCreateOk then
      ⟨ops0, none, .error "failed to create rsync log file"⟩
    else
      let ops1 := ops0 ++ [.createFile (unfinishedDir ++ "/rsync.log")]
      let call : RsyncCall := ⟨args, .logFile (unfinishedDir ++ "/rsync.log")⟩
      if rsyncRunFails rsync config.ignoreVanishedFilesError then
        ⟨ops1, some call, .error "rsync command failed"⟩
      else if renameOk then
        ⟨ops1 ++ [.rename unfinishedDir finalDest true], some call, .ok ()⟩
      else
        ⟨ops1 ++ [.rename unfinishedDir finalDest false], some call,
          .error "failed to rename unfinished directory"⟩

/-- Effect of one filesystem operation on whether a directory at `path`
exists: `RemoveAll` removes it, `MkdirAll` creates it, a successful
`Rename` makes the target exist and the source not, a failed rename and a
file creation change nothing. -/
def applyOp (op : FsOp) (path : String) (ex : Bool) : Bool :=
  match op with
  | .removeAll p => if p = path then false else ex
  | .mkdirAll p => if p = path then true else ex
  | .createFile _ => ex
  | .rename src dst ok =>
    if ok then (if path = dst then true else if path = src then false else ex)
    else ex

/-- Whether a directory at `path` exists after the operation trace `ops`,
starting from existence state `init`. -/
def existsAfter (ops : List FsOp) (path : String) (init : Bool) : Bool :=
  ops.foldl (fun ex op => applyOp op path ex) init

/-! ## Scenario A of the specification -/

/-- The snapshot ages (in days) of Scenario A. -/
def scenarioAAges : List Int := [1, 2, 8, 9, 15, 16, 35, 36, 70, 71]

/-- A destination listing realising Scenario A relative to an anchor day:
one snapshot directory per age, named after its age, each modified
`age` days before the anchor. -/
def scenarioAEntries (anchor : Int) : List DirEntry :=
  scenarioAAges.map (fun a => ⟨"age" ++ toString a, true, (anchor - a) * 86400⟩)

/-- The Scenario A policy: daily = 2, weekly = 2, monthly = 1. -/
def scenarioAPolicy : Keep := ⟨2, 2, 1⟩

/-- The newest-first snapshot list the retention engine derives from a
destination listing (sort ascending by modification time, then reverse). -/
def newestFirst (entries : List DirEntry) : List Snapshot :=
  (sortByModTime (snapshotFilter entries)).reverse

/-- C1 (counterexample): the keep set of Scenario A is not determined by
the ages alone — it depends on where the anchor date falls in the
calendar.  Anchored at 2025-01-10, the snapshot aged 35 days
(2024-12-06) shares its month with the weekly-kept snapshot aged 15 days
(2024-12-26), so the monthly tier skips it and keeps the snapshot aged
70 days (2024-11-01) instead: the keep set is not
{1, 2, 8, 15, 35}. -/
theorem scenarioA_cex :
    "age70" ∈ keepSet (newestFirst (scenarioAEntries (daysFromCivil 2025 1 10)))
        scenarioAPolicy
    ∧ "age35" ∉ keepSet (newestFirst (scenarioAEntries (daysFromCivil 2025 1 10)))
        scenarioAPolicy := by
  constructor
  · decide
  · decide

/-- C1 (amended): for a calendar-aligned anchor — one where no ISO-week
boundary separates ages 8 from 9 or 15 from 16, no month boundary
isolates an unkept snapshot among ages 1–16, and age 35 falls in a month
none of ages 1–16 touch, e.g. 2025-06-26 — the keep set of Scenario A is
exactly the snapshots aged {1, 2, 8, 15, 35}, and each other snapshot
(ages 9, 16, 36, 70, 71) is a deletion candidate, receiving one purge
action. -/
theorem scenarioA_keep :
    keepSet (newestFirst (scenarioAEntries (daysFromCivil 2025 6 26)))
        scenarioAPolicy = ["age1", "age2", "age8", "age15", "age35"]
    ∧ purgeBackups (.ok (scenarioAEntries (daysFromCivil 2025 6 26)))
        scenarioAPolicy true (fun _ => false)
      = .ok [.report "age9", .report "age16", .report "age36",
             .report "age70", .report "age71"]
    ∧ purgeBackups (.ok (scenarioAEntries (daysFromCivil 2025 6 26)))
        scenarioAPolicy false (fun _ => false)
      = .ok [.delete "age9" true, .delete "age16" true, .delete "age36" true,
             .delete "age70" true, .delete "age71" true] := by
  refine ⟨by decide, by rfl, by rfl⟩

/-- C8: purging an absent destination directory or an empty snapshot
listing is a no-op returning success with no deletions, while any other
listing failure is returned as the purge phase's error. -/
theorem purge_empty_or_missing_noop (k : Keep) (dryRun : Bool)
    (delFails : String → Bool) (m : String) :
    purgeBackups (.error .notExist) k dryRun delFails = .ok []
    ∧ purgeBackups (.ok []) k dryRun delFails = .ok []
    ∧ purgeBackups (.error (.other m)) k dryRun delFails = .error (.other m) :=
  ⟨rfl, rfl, rfl⟩

/-! ## Helper lemmas -/

theorem memb_iff {α : Type} [DecidableEq α] (l : List α) (a : α) :
    memb l a = true ↔ a ∈ l := by
  induction l with
  | nil => simp [memb]
  | cons b rest ih =>
    by_cases h : b = a
    · simp [memb, h]
    · simp only [memb, if_neg h, ih, List.mem_cons]
      exact ⟨Or.inr, fun hc => hc.resolve_left (fun h' => h h'.symm)⟩

theorem memb_append {α : Type} [DecidableEq α] (l₁ l₂ : List α) (a : α) :
    memb (l₁ ++ l₂) a = (memb l₁ a || memb l₂ a) := by
  induction l₁ with
  | nil => simp [memb]
  | cons b rest ih =>
    by_cases h : b = a <;> simp [memb, h, ih]

theorem getLatestSnapshot_ok (entries : List DirEntry) :
    ∃ nm, getLatestSnapshot (Except.ok entries) = .ok nm := by
  by_cases h : (sortByModTime (snapshotFilter entries)).length = 0
  · exact ⟨"", by simp [getLatestSnapshot, getSnapshots, h]⟩
  · exact ⟨(((sortByModTime (snapshotFilter entries)).getLast?).map Snapshot.name).getD "",
      by simp [getLatestSnapshot, getSnapshots, h]⟩

theorem withDryRunFlag_mem (args : List String) :
    "--dry-run" ∈ withDryRunFlag true args ∨ "-n" ∈ withDryRunFlag true args := by
  unfold withDryRunFlag
  by_cases h : args.any (fun a => a == "--dry-run" || a == "-n")
  · rw [if_neg (by simp [h])]
    rcases List.any_eq_true.mp h with ⟨a, ha, hpq⟩
    rcases Bool.or_eq_true_iff.mp hpq with h1 | h2
    · exact Or.inl (beq_iff_eq.mp h1 ▸ ha)
    · exact Or.inr (beq_iff_eq.mp h2 ▸ ha)
  · rw [if_pos (by simp [h])]
    exact Or.inl (List.mem_append_right _ (List.mem_singleton.mpr rfl))

/-! ## Publisher claims -/

/-- C4: with all other steps succeeding, a real-run publish succeeds
exactly when the rsync subprocess exits 0, or exits with the
vanished-source code 24 while `ignore_vanished_files_error` is set; any
other exit code — including 24 without the flag — is a hard failure. -/
theorem publisher_exit_code_policy (config : Config) (nowStr : String)
    (entries : List DirEntry) (code : Int) :
    (runBackup config false nowStr (.ok entries) true true (.exited code)).result
        = .ok ()
    ↔ (code = 0 ∨ (code = 24 ∧ config.ignoreVanishedFilesError = true)) := by
  obtain ⟨nm, hnm⟩ := getLatestSnapshot_ok entries
  unfold runBackup
  rw [hnm]
  simp only [Bool.not_true, Bool.false_eq_true, if_false, if_true, rsyncRunFails]
  by_cases h0 : code = 0
  · simp [h0]
  · by_cases h24 : code = 24
    · by_cases hig : config.ignoreVanishedFilesError
      · simp [h0, h24, hig]
      · simp [h0, h24, hig]
    · simp [h0, h24]

/-- C10: when `cmd.Run` fails without an exit status (the error is not an
`*exec.ExitError`, e.g. rsync could not be started), the publish is a
hard failure for every configuration — in particular even when
`ignore_vanished_files_error` is set. -/
theorem start_failure_hard (config : Config) (nowStr : String)
    (entries : List DirEntry) (renameOk : Bool) (msg : String) :
    (runBackup config false nowStr (.ok entries) true renameOk
        (.startFailure msg)).result = .error "rsync command failed" := by
  obtain ⟨nm, hnm⟩ := getLatestSnapshot_ok entries
  unfold runBackup
  rw [hnm]
  simp [rsyncRunFails]

theorem rsyncArgs_dry_run_mem (config : Config) (latest u : String) :
    "--dry-run" ∈ rsyncArgs config true latest u
    ∨ "-n" ∈ rsyncArgs config true latest u := by
  unfold rsyncArgs
  dsimp only
  rcases withDryRunFlag_mem (if config.rsyncExtraFlags ≠ "" then
      (if latest ≠ "" then
          ["-a", "-v", "-h", "--delete", "--stats", "--inplace"]
            ++ ["--link-dest=" ++ (config.destination ++ "/" ++ latest)]
        else ["-a", "-v", "-h", "--delete", "--stats", "--inplace"])
        ++ config.exclude.map (fun ex => "--exclude=" ++ ex)
        ++ config.rsyncExtraFlags.splitOn " "
    else
      (if latest ≠ "" then
          ["-a", "-v", "-h", "--delete", "--stats", "--inplace"]
            ++ ["--link-dest=" ++ (config.destination ++ "/" ++ latest)]
        else ["-a", "-v", "-h", "--delete", "--stats", "--inplace"])
        ++ config.exclude.map (fun ex => "--exclude=" ++ ex)) with h | h
  · exact Or.inl (List.mem_append_left _ (List.mem_append_left _ h))
  · exact Or.inr (List.mem_append_left _ (List.mem_append_left _ h))

/-- C6: a dry-run publish performs no filesystem mutation at all — no
staging directory removal or creation, no log file, no rename — for every
subprocess outcome, while still invoking the subprocess with its output
on the caller's standard streams and with a dry-run flag among the
arguments (either the appended `--dry-run` or a `-n`/`--dry-run` already
present in the extra flags). -/
theorem dry_run_no_mutation (config : Config) (nowStr : String)
    (entries : List DirEntry) (logCreateOk renameOk : Bool) (rsync : CmdResult) :
    (runBackup config true nowStr (.ok entries) logCreateOk renameOk rsync).ops = []
    ∧ ∃ call, (runBackup config true nowStr (.ok entries) logCreateOk renameOk
          rsync).call = some call
        ∧ call.out = .streams
        ∧ ("--dry-run" ∈ call.args ∨ "-n" ∈ call.args) := by
  obtain ⟨nm, hnm⟩ := getLatestSnapshot_ok entries
  unfold runBackup
  rw [hnm]
  by_cases hr : rsyncRunFails rsync config.ignoreVanishedFilesError
  · exact ⟨by simp [hr],
      ⟨⟨rsyncArgs config true nm (config.destination ++ "/.unfinished"), .streams⟩,
        by simp [hr], rfl,
        rsyncArgs_dry_run_mem config nm (config.destination ++ "/.unfinished")⟩⟩
  · exact ⟨by simp [hr],
      ⟨⟨rsyncArgs config true nm (config.destination ++ "/.unfinished"), .streams⟩,
        by simp [hr], rfl,
        rsyncArgs_dry_run_mem config nm (config.destination ++ "/.unfinished")⟩⟩

/-- C5: when a real-run publish ends in any hard failure after the staging
directory was created — a listing failure, a log-file creation failure, a
non-tolerated subprocess exit, or a failed rename — no successful rename
to the final snapshot name occurs, no directory ever exists under the
final timestamped name, and the staging directory is left in place on
disk. -/
theorem publish_failure_preserves_staging (config : Config) (nowStr : String)
    (entries : List DirEntry) (logCreateOk renameOk : Bool) (rsync : CmdResult)
    (init : Bool)
    (hne : config.destination ++ "/" ++ (config.snapshotPfx ++ "_" ++ nowStr)
        ≠ config.destination ++ "/.unfinished")
    (hfail : (runBackup config false nowStr (.ok entries) logCreateOk renameOk
        rsync).result ≠ .ok ()) :
    FsOp.rename (config.destination ++ "/.unfinished")
        (config.destination ++ "/" ++ (config.snapshotPfx ++ "_" ++ nowStr)) true
      ∉ (runBackup config false nowStr (.ok entries) logCreateOk renameOk rsync).ops
    ∧ existsAfter
        (runBackup config false nowStr (.ok entries) logCreateOk renameOk rsync).ops
        (config.destination ++ "/.unfinished") init = true
    ∧ existsAfter
        (runBackup config false nowStr (.ok entries) logCreateOk renameOk rsync).ops
        (config.destination ++ "/" ++ (config.snapshotPfx ++ "_" ++ nowStr)) false
      = false := by
  obtain ⟨nm, hnm⟩ := getLatestSnapshot_ok entries
  unfold runBackup at hfail ⊢
  rw [hnm] at hfail ⊢
  by_cases hl : logCreateOk
  · by_cases hr : rsyncRunFails rsync config.ignoreVanishedFilesError
    · refine ⟨by simp [hl, hr], ?_, ?_⟩
      · simp [hl, hr, existsAfter, applyOp]
      · simp [hl, hr, existsAfter, applyOp, Ne.symm hne]
    · by_cases hren : renameOk
      · exact absurd (by simp [hl, hr, hren]) hfail
      · refine ⟨by simp [hl, hr, hren], ?_, ?_⟩
        · simp [hl, hr, hren, existsAfter, applyOp, hne]
        · simp [hl, hr, hren, existsAfter, applyOp, hne, Ne.symm hne]
  · refine ⟨by simp [hl], ?_, ?_⟩
    · simp [hl, existsAfter, applyOp]
    · simp [hl, existsAfter, applyOp, Ne.symm hne]

/-- A small concrete configuration used by witnesses. -/
def witnessConfig : Config :=
  ⟨"/dst", "snap", ["/src"], [], ⟨2, 2, 1⟩, "", false⟩

theorem publish_failure_preserves_staging_witness :
    ("/dst" ++ "/" ++ ("snap" ++ "_" ++ "t") ≠ "/dst" ++ "/.unfinished")
    ∧ (runBackup witnessConfig false "t" (.ok []) true true
        (.exited 24)).result ≠ .ok ()
    ∧ (FsOp.rename ("/dst" ++ "/.unfinished")
          ("/dst" ++ "/" ++ ("snap" ++ "_" ++ "t")) true
        ∉ (runBackup witnessConfig false "t" (.ok []) true true (.exited 24)).ops
      ∧ existsAfter
          (runBackup witnessConfig false "t" (.ok []) true true (.exited 24)).ops
          ("/dst" ++ "/.unfinished") true = true
      ∧ existsAfter
          (runBackup witnessConfig false "t" (.ok []) true true (.exited 24)).ops
          ("/dst" ++ "/" ++ ("snap" ++ "_" ++ "t")) false = false) :=
  ⟨by decide, fun h => Except.noConfusion h,
    publish_failure_preserves_staging witnessConfig "t" [] true true (.exited 24)
      true (by decide) (fun h => Except.noConfusion h)⟩

/-! ## Determinism of the keep set (retention engine) -/

/-- Ascending sortedness by modification time: the guarantee Go's
`sort.Slice` gives for the comparator `ModTime().Before`. -/
def SortedAsc (l : List Snapshot) : Prop :=
  List.Pairwise (fun a b => a.modTime ≤ b.modTime) l

/-- `out` is a possible result of (unstably) sorting the listing `l`
ascending by modification time. -/
def IsSortOf (out l : List Snapshot) : Prop := out.Perm l ∧ SortedAsc out

instance (l : List Snapshot) : Decidable (SortedAsc l) :=
  inferInstanceAs (Decidable (List.Pairwise _ l))

instance (out l : List Snapshot) : Decidable (IsSortOf out l) :=
  inferInstanceAs (Decidable (_ ∧ _))

instance : IsTotal Snapshot (fun a b => a.modTime ≤ b.modTime) :=
  ⟨fun a b => le_total a.modTime b.modTime⟩

instance : IsTrans Snapshot (fun a b => a.modTime ≤ b.modTime) :=
  ⟨fun _ _ _ h h' => le_trans h h'⟩

/-- The model's canonical sort is one valid output of the unstable sort. -/
theorem sortByModTime_isSortOf (l : List Snapshot) :
    IsSortOf (sortByModTime l) l :=
  ⟨List.perm_insertionSort _ l, List.sorted_insertionSort _ l⟩

/-- C2 (amended): for listings with pairwise-distinct timestamps the keep
set is a function of the (name, timestamp) multiset and the policy alone:
whatever order the listing is presented in and whichever sorted
permutation the unstable sort returns, the engine's newest-first walk — and
hence the keep set — is identical. -/
theorem keep_set_deterministic (l₁ l₂ s₁ s₂ : List Snapshot) (k : Keep)
    (hperm : l₁.Perm l₂) (h₁ : IsSortOf s₁ l₁) (h₂ : IsSortOf s₂ l₂)
    (hd : (l₁.map Snapshot.modTime).Nodup) :
    keepSet s₁.reverse k = keepSet s₂.reverse k := by
  have hps : s₁.Perm s₂ := h₁.1.trans (hperm.trans h₂.1.symm)
  have hd₁ : (s₁.map Snapshot.modTime).Nodup :=
    ((h₁.1.map Snapshot.modTime).nodup_iff).mpr hd
  have hd₂ : (s₂.map Snapshot.modTime).Nodup :=
    ((hps.map Snapshot.modTime).nodup_iff).mp hd₁
  have hs₁ : s₁.Pairwise (fun a b => a.modTime < b.modTime) :=
    (h₁.2.and (List.pairwise_map.mp hd₁)).imp
      (fun h => lt_of_le_of_ne h.1 h.2)
  have hs₂ : s₂.Pairwise (fun a b => a.modTime < b.modTime) :=
    (h₂.2.and (List.pairwise_map.mp hd₂)).imp
      (fun h => lt_of_le_of_ne h.1 h.2)
  haveI : IsAntisymm Snapshot (fun a b => a.modTime < b.modTime) :=
    ⟨fun a b h h' => absurd (lt_trans h h') (lt_irrefl _)⟩
  rw [List.eq_of_perm_of_sorted hps hs₁ hs₂]

/-- C2 (counterexample): when two snapshots share a timestamp the keep set
is not a function of the listing's multiset: both orders of the tied pair
are valid outputs of the unstable sort of the same listing, yet with
policy daily = 1 the engine keeps `"b"` for one order and `"a"` for the
other. -/
theorem keep_set_tie_cex :
    IsSortOf [⟨"a", 0⟩, ⟨"b", 0⟩] [⟨"a", 0⟩, ⟨"b", 0⟩]
    ∧ IsSortOf [⟨"b", 0⟩, ⟨"a", 0⟩] [⟨"a", 0⟩, ⟨"b", 0⟩]
    ∧ keepSet (List.reverse [⟨"a", 0⟩, ⟨"b", 0⟩]) ⟨1, 0, 0⟩
      ≠ keepSet (List.reverse [⟨"b", 0⟩, ⟨"a", 0⟩]) ⟨1, 0, 0⟩ := by
  refine ⟨⟨?_, ?_⟩, ⟨?_, ?_⟩, ?_⟩ <;> decide

theorem keep_set_deterministic_witness :
    (([⟨"a", 0⟩, ⟨"b", 86400⟩] : List Snapshot).Perm [⟨"b", 86400⟩, ⟨"a", 0⟩]
      ∧ IsSortOf [⟨"a", 0⟩, ⟨"b", 86400⟩] [⟨"a", 0⟩, ⟨"b", 86400⟩]
      ∧ IsSortOf [⟨"a", 0⟩, ⟨"b", 86400⟩] [⟨"b", 86400⟩, ⟨"a", 0⟩]
      ∧ (([⟨"a", 0⟩, ⟨"b", 86400⟩] : List Snapshot).map Snapshot.modTime).Nodup)
    ∧ keepSet (List.reverse [⟨"a", 0⟩, ⟨"b", 86400⟩]) ⟨1, 0, 0⟩
      = keepSet (List.reverse [⟨"a", 0⟩, ⟨"b", 86400⟩]) ⟨1, 0, 0⟩ :=
  ⟨⟨by decide, ⟨by decide, by decide⟩, ⟨by decide, by decide⟩, by decide⟩,
    keep_set_deterministic [⟨"a", 0⟩, ⟨"b", 86400⟩] [⟨"b", 86400⟩, ⟨"a", 0⟩]
      [⟨"a", 0⟩, ⟨"b", 86400⟩] [⟨"a", 0⟩, ⟨"b", 86400⟩] ⟨1, 0, 0⟩
      (by decide) ⟨by decide, by decide⟩ ⟨by decide, by decide⟩ (by decide)⟩

/-! ## Bucket-representative structure of the weekly and monthly tiers -/

/-- The snapshots eligible for a tier: walking the list in order, the
first snapshot of each calendar bucket not already in `seen`. -/
def bucketFirsts (key : Snapshot → Int) : List Snapshot → List Int → List Snapshot
  | [], _ => []
  | s :: rest, seen =>
    if memb seen (key s) then bucketFirsts key rest seen
    else s :: bucketFirsts key rest (key s :: seen)

theorem bucketFirsts_subset (key : Snapshot → Int) :
    ∀ (l : List Snapshot) (seen : List Int) (t : Snapshot),
      t ∈ bucketFirsts key l seen → t ∈ l := by
  intro l
  induction l with
  | nil => intro seen t h; simp [bucketFirsts] at h
  | cons s rest ih =>
    intro seen t h
    unfold bucketFirsts at h
    by_cases hs : memb seen (key s) = true
    · rw [if_pos hs] at h
      exact List.mem_cons_of_mem s (ih seen t h)
    · rw [if_neg hs] at h
      rcases List.mem_cons.mp h with he | hm
      · exact he ▸ List.mem_cons_self s rest
      · exact List.mem_cons_of_mem s (ih (key s :: seen) t hm)

/-- Closed form of a tier walk: starting from budget `limit - count`, seen
buckets `seen` and an inherited keep set `kept`, the tier appends the
names of the first `limit - count` bucket representatives not already
kept.  Requires the listing's names to be distinct (true of any directory
listing). -/
theorem tierPass_closed (key : Snapshot → Int) :
    ∀ (l : List Snapshot) (limit count : Int) (seen : List Int)
      (kept : List String), (l.map Snapshot.name).Nodup →
      tierPass key l limit count seen kept
        = kept ++ (((bucketFirsts key l seen).filter
            (fun s => !(memb kept s.name))).map Snapshot.name).take
            (limit - count).toNat := by
  intro l
  induction l with
  | nil => intro limit count seen kept hnd; simp [tierPass, bucketFirsts]
  | cons s rest ih =>
    intro limit count seen kept hnd
    rw [List.map_cons, List.nodup_cons] at hnd
    obtain ⟨hs_not, hnd'⟩ := hnd
    by_cases hstop : count ≥ limit
    · have hz : (limit - count).toNat = 0 := by omega
      simp [tierPass, hstop, hz]
    · by_cases hseen : memb seen (key s) = true
      · have h1 : tierPass key (s :: rest) limit count seen kept
            = tierPass key rest limit count seen kept := by
          simp [tierPass, hstop, hseen]
        have h2 : bucketFirsts key (s :: rest) seen
            = bucketFirsts key rest seen := by
          simp [bucketFirsts, hseen]
        rw [h1, h2]
        exact ih limit count seen kept hnd'
      · have h2 : bucketFirsts key (s :: rest) seen
            = s :: bucketFirsts key rest (key s :: seen) := by
          simp [bucketFirsts, hseen]
        by_cases hkept : memb kept s.name = true
        · have h1 : tierPass key (s :: rest) limit count seen kept
              = tierPass key rest limit count (key s :: seen) kept := by
            simp [tierPass, hstop, hseen, hkept]
          rw [h1, h2, List.filter_cons]
          rw [if_neg (by simp [hkept] : ¬((!memb kept s.name) = true))]
          exact ih limit count (key s :: seen) kept hnd'
        · have h1 : tierPass key (s :: rest) limit count seen kept
              = tierPass key rest limit (count + 1) (key s :: seen)
                  (kept ++ [s.name]) := by
            simp [tierPass, hstop, hseen, hkept]
          rw [h1, h2, ih limit (count + 1) (key s :: seen) (kept ++ [s.name]) hnd']
          have hfc : (bucketFirsts key rest (key s :: seen)).filter
                (fun t => !(memb (kept ++ [s.name]) t.name))
              = (bucketFirsts key rest (key s :: seen)).filter
                (fun t => !(memb kept t.name)) := by
            apply List.filter_congr
            intro t ht
            have htr : t ∈ rest := bucketFirsts_subset key rest _ t ht
            have hne : t.name ≠ s.name := fun he =>
              hs_not (he ▸ List.mem_map_of_mem Snapshot.name htr)
            have hsn : ¬(s.name = t.name) := fun h => hne h.symm
            have hm1 : memb [s.name] t.name = false := by simp [memb, hsn]
            rw [memb_append, hm1]
            simp
          rw [hfc, List.filter_cons]
          rw [if_pos (by simp [hkept] : (!memb kept s.name) = true)]
          have hn : (limit - count).toNat = (limit - (count + 1)).toNat + 1 := by
            omega
          rw [List.map_cons, hn, List.take_succ_cons]
          simp [List.append_assoc]

/-- C3: in the weekly tier (and identically the monthly tier), only the
first snapshot encountered of each calendar bucket is eligible; a
bucket's representative that an earlier tier already kept is skipped —
with its bucket still marked seen — without consuming a slot (the filter
by the inherited keep set happens before the budget `take`), and the tier
appends up to `weekly` (resp. `monthly`) additional bucket
representatives beyond those already kept. -/
theorem tier_bucket_selection (l : List Snapshot) (d : List String) (k : Keep)
    (hnd : (l.map Snapshot.name).Nodup) :
    tierPass weekKey l k.weekly 0 [] d
      = d ++ (((bucketFirsts weekKey l []).filter
          (fun s => !(memb d s.name))).map Snapshot.name).take k.weekly.toNat
    ∧ tierPass monthKey l k.monthly 0 [] d
      = d ++ (((bucketFirsts monthKey l []).filter
          (fun s => !(memb d s.name))).map Snapshot.name).take k.monthly.toNat := by
  constructor
  · simpa using tierPass_closed weekKey l k.weekly 0 [] d hnd
  · simpa using tierPass_closed monthKey l k.monthly 0 [] d hnd

theorem tier_bucket_selection_witness :
    (([⟨"x", 86400⟩, ⟨"y", 0⟩] : List Snapshot).map Snapshot.name).Nodup
    ∧ (tierPass weekKey [⟨"x", 86400⟩, ⟨"y", 0⟩] 1 0 [] ["x"]
        = ["x"] ++ (((bucketFirsts weekKey [⟨"x", 86400⟩, ⟨"y", 0⟩] []).filter
            (fun s => !(memb ["x"] s.name))).map Snapshot.name).take (1 : Int).toNat
      ∧ tierPass monthKey [⟨"x", 86400⟩, ⟨"y", 0⟩] 1 0 [] ["x"]
        = ["x"] ++ (((bucketFirsts monthKey [⟨"x", 86400⟩, ⟨"y", 0⟩] []).filter
            (fun s => !(memb ["x"] s.name))).map Snapshot.name).take (1 : Int).toNat) :=
  ⟨by decide,
    tier_bucket_selection [⟨"x", 86400⟩, ⟨"y", 0⟩] ["x"] ⟨0, 1, 1⟩ (by decide)⟩

/-! ## The purge loop and the keep set as a subset of the listing -/

theorem purgeLoop_eq (dryRun : Bool) (delFails : String → Bool)
    (kept : List String) :
    ∀ l : List Snapshot, purgeLoop dryRun delFails kept l
      = (l.filter (fun s => !(memb kept s.name))).map
          (fun s => if dryRun then PurgeAction.report s.name
            else PurgeAction.delete s.name (!delFails s.name)) := by
  intro l
  induction l with
  | nil => simp [purgeLoop]
  | cons s rest ih =>
    unfold purgeLoop
    by_cases hk : memb kept s.name = true
    · rw [if_pos hk, List.filter_cons, if_neg (by simp [hk])]
      exact ih
    · rw [if_neg hk, List.filter_cons,
        if_pos (by simp [hk] : (!memb kept s.name) = true), List.map_cons]
      by_cases hd : dryRun
      · rw [if_pos hd, if_pos hd, ih]
      · rw [if_neg hd, if_neg hd, ih]

theorem dailyPass_mem :
    ∀ (l : List Snapshot) (limit count : Int) (kept : List String) (nm : String),
      nm ∈ dailyPass l limit count kept → nm ∈ kept ∨ nm ∈ l.map Snapshot.name := by
  intro l
  induction l with
  | nil =>
    intro limit count kept nm h
    exact Or.inl (by simpa [dailyPass] using h)
  | cons s rest ih =>
    intro limit count kept nm h
    unfold dailyPass at h
    by_cases hc : count < limit
    · rw [if_pos hc] at h
      by_cases hk : memb kept s.name = true
      · rw [if_pos hk] at h
        rcases ih _ _ _ _ h with h' | h'
        · exact Or.inl h'
        · rw [List.map_cons]; exact Or.inr (List.mem_cons_of_mem _ h')
      · rw [if_neg hk] at h
        rcases ih _ _ _ _ h with h' | h'
        · rcases List.mem_append.mp h' with h'' | h''
          · exact Or.inl h''
          · rw [List.map_cons]
            exact Or.inr (List.mem_cons.mpr (Or.inl (List.mem_singleton.mp h'')))
        · rw [List.map_cons]; exact Or.inr (List.mem_cons_of_mem _ h')
    · rw [if_neg hc] at h; exact Or.inl h

theorem tierPass_mem (key : Snapshot → Int) :
    ∀ (l : List Snapshot) (limit count : Int) (seen : List Int)
      (kept : List String) (nm : String),
      nm ∈ tierPass key l limit count seen kept
      → nm ∈ kept ∨ nm ∈ l.map Snapshot.name := by
  intro l
  induction l with
  | nil =>
    intro limit count seen kept nm h
    exact Or.inl (by simpa [tierPass] using h)
  | cons s rest ih =>
    intro limit count seen kept nm h
    unfold tierPass at h
    by_cases hstop : count ≥ limit
    · rw [if_pos hstop] at h; exact Or.inl h
    · rw [if_neg hstop] at h
      by_cases hseen : memb seen (key s) = true
      · rw [if_pos hseen] at h
        rcases ih _ _ _ _ _ h with h' | h'
        · exact Or.inl h'
        · rw [List.map_cons]; exact Or.inr (List.mem_cons_of_mem _ h')
      · rw [if_neg hseen] at h
        by_cases hk : memb kept s.name = true
        · rw [if_pos hk] at h
          rcases ih _ _ _ _ _ h with h' | h'
          · exact Or.inl h'
          · rw [List.map_cons]; exact Or.inr (List.mem_cons_of_mem _ h')
        · rw [if_neg hk] at h
          rcases ih _ _ _ _ _ h with h' | h'
          · rcases List.mem_append.mp h' with h'' | h''
            · exact Or.inl h''
            · rw [List.map_cons]
              exact Or.inr (List.mem_cons.mpr (Or.inl (List.mem_singleton.mp h'')))
          · rw [List.map_cons]; exact Or.inr (List.mem_cons_of_mem _ h')

theorem keepSet_mem (snapshots : List Snapshot) (k : Keep) (nm : String)
    (h : nm ∈ keepSet snapshots k) : nm ∈ snapshots.map Snapshot.name := by
  unfold keepSet at h
  rcases tierPass_mem monthKey _ _ _ _ _ _ h with h | h
  · rcases tierPass_mem weekKey _ _ _ _ _ _ h with h | h
    · rcases dailyPass_mem _ _ _ _ _ h with h | h
      · exact absurd h (List.not_mem_nil nm)
      · exact h
    · exact h
  · exact h

/-- C7: the purge pass always returns success; its emitted actions are
exactly one per snapshot outside the keep set (a report in dry-run, a
delete attempt otherwise, whose recorded outcome follows the failure
oracle without stopping the walk); and every name in the keep set is the
name of a snapshot of the listing. -/
theorem purge_monotone_best_effort (entries : List DirEntry) (k : Keep)
    (dryRun : Bool) (delFails : String → Bool) :
    purgeBackups (.ok entries) k dryRun delFails
      = .ok (((newestFirst entries).filter
          (fun s => !(memb (keepSet (newestFirst entries) k) s.name))).map
          (fun s => if dryRun then PurgeAction.report s.name
            else PurgeAction.delete s.name (!delFails s.name)))
    ∧ (keepSet (newestFirst entries) k).all
        (fun nm => (newestFirst entries).any (fun s => s.name == nm)) = true := by
  constructor
  · show purgeBackups (.ok entries) k dryRun delFails = _
    unfold purgeBackups getSnapshots newestFirst
    by_cases h0 : ((sortByModTime (snapshotFilter entries)).reverse).length = 0
    · have he : (sortByModTime (snapshotFilter entries)).reverse = [] :=
        List.length_eq_zero.mp h0
      simp [he]
    · simp only [h0, if_neg h0]
      rw [purgeLoop_eq]
      simp
  · rw [List.all_eq_true]
    intro nm hnm
    rcases List.mem_map.mp (keepSet_mem _ k nm hnm) with ⟨s, hs, rfl⟩
    rw [List.any_eq_true]
    exact ⟨s, hs, beq_self_eq_true _⟩

/-! ## Dot-named entries are invisible -/

theorem snapshotFilter_no_dot (entries : List DirEntry) :
    ∀ s ∈ snapshotFilter entries, startsWithDot s.name = false := by
  intro s hs
  unfold snapshotFilter at hs
  rcases List.mem_map.mp hs with ⟨e, he, rfl⟩
  have h2 := (List.mem_filter.mp he).2
  rw [Bool.and_eq_true] at h2
  simpa [entrySnapshot] using h2.2

theorem mem_newestFirst (entries : List DirEntry) (s : Snapshot) :
    s ∈ newestFirst entries ↔ s ∈ snapshotFilter entries := by
  unfold newestFirst sortByModTime
  rw [List.mem_reverse]
  exact List.mem_insertionSort _

/-- C9: the snapshot listing never contains a dot-prefixed name — in
particular never the `.unfinished` staging directory: such a directory is
never listed as a snapshot, the hard-link reference chosen by the
publisher is either the empty sentinel or a dot-free snapshot name, and
every purge action targets a dot-free name. -/
theorem dot_entries_never_snapshots (entries : List DirEntry) (k : Keep)
    (dryRun : Bool) (delFails : String → Bool) :
    (newestFirst entries).all (fun s => !(startsWithDot s.name)) = true
    ∧ (match getLatestSnapshot (.ok entries) with
       | .ok nm => nm == "" || !(startsWithDot nm)
       | .error _ => true) = true
    ∧ (match purgeBackups (.ok entries) k dryRun delFails with
       | .ok acts => acts.all (fun a => !(startsWithDot (actionName a)))
       | .error _ => true) = true := by
  refine ⟨?_, ?_, ?_⟩
  · rw [List.all_eq_true]
    intro s hs
    simp [snapshotFilter_no_dot entries s ((mem_newestFirst entries s).mp hs)]
  · unfold getLatestSnapshot getSnapshots
    by_cases h0 : (sortByModTime (snapshotFilter entries)).length = 0
    · simp [h0]
    · simp only [h0, if_neg h0]
      cases hg : (sortByModTime (snapshotFilter entries)).getLast? with
      | none => simp [hg]
      | some s =>
        have hmem : s ∈ sortByModTime (snapshotFilter entries) :=
          List.mem_of_getLast?_eq_some hg
        have hsf : s ∈ snapshotFilter entries := by
          unfold sortByModTime at hmem
          exact (List.mem_insertionSort _).mp hmem
        simp [hg, snapshotFilter_no_dot entries s hsf]
  · unfold purgeBackups getSnapshots
    by_cases h0 : ((sortByModTime (snapshotFilter entries)).reverse).length = 0
    · simp [List.length_eq_zero.mp h0]
    · dsimp only
      rw [if_neg h0, purgeLoop_eq]
      have hall : ∀ a ∈ (((sortByModTime (snapshotFilter entries)).reverse.filter
            (fun s => !(memb (keepSet ((sortByModTime (snapshotFilter entries)).reverse) k)
              s.name))).map
            (fun s => if dryRun then PurgeAction.report s.name
              else PurgeAction.delete s.name (!delFails s.name))),
          (!(startsWithDot (actionName a))) = true := by
        intro a ha
        rcases List.mem_map.mp ha with ⟨s, hsf, rfl⟩
        have hsl : s ∈ newestFirst entries := (List.mem_filter.mp hsf).1
        have hnd := snapshotFilter_no_dot entries s ((mem_newestFirst entries s).mp hsl)
        by_cases hd : dryRun <;> simp [hd, actionName, hnd]
      exact List.all_eq_true.mpr hall

end GoBack
